import Mathlib

/-!
Verification development for the Cisco multi-backend agent repository
(`aci_agent.py`, `ise_agent.py`, `ios_xe_agent.py`, `cisco_agent.py`).

The core logic of the repository is: load a static catalog of (URL/command,
display-name) pairs from a JSON file, fuzzily match free-text queries
against it via `difflib.get_close_matches` (n = 1, cutoff = 0.6), and on a
match emit an "action directive" telling the agent which tool to run next.
Backend operations (ACI create, IOS XE show/configure) are straight-line
functions over network/device I/O, embedded here with explicit outcome
oracles and event traces.

Conventions of the embedding:
* Python strings are `List Char`; comparison of characters is by code
  point (`Char.toNat`), as in CPython.
* Python floats in `difflib` are modelled by `ℚ`.  For similarity scores
  `2*M/T` with realistic string lengths the rational comparison with the
  exact cutoff 3/5 coincides with the CPython double comparison against the
  literal `0.6` (the score differs from 3/5 by at least `1/(5*T)` whenever
  it differs at all, far above double rounding error), so the model is
  faithful.
* Fallible I/O (file reads, HTTP, device connections) is represented by
  explicit outcome values (`Except`, oracles) passed as arguments.
-/

/-- Convert a Lean string literal to the `List Char` representation used for
Python strings throughout this file. -/
def s2l (s : String) : List Char := s.toList

namespace Difflib

/-!
Model of the parts of the CPython `difflib` used by the repository:
`SequenceMatcher` (with `isjunk = None`) and `get_close_matches(word,
possibilities, n=1, cutoff=0.6)`.  In `get_close_matches`, `seq2` is the
query `word` and `seq1` ranges over the catalog entries, so the `b2j`
index (and the autojunk heuristic) is built from the query.
-/

/-- Indexing `a[i]` for Python strings; all call sites keep `i` in range, the default
is never reached on those inputs. -/
def charAt (l : List Char) (i : Nat) : Char := (l.get? i).getD 'A'

/-- Indices `j` with `b[j] = c`, in increasing order (the order in which
the CPython `__chain_b` appends them). -/
def indicesOf (b : List Char) (c : Char) : List Nat :=
  (b.enum.filter (fun p => p.2 == c)).map Prod.fst

/-- Number of occurrences of `c` in `b`. -/
def countElem (b : List Char) (c : Char) : Nat := (b.filter (fun d => d == c)).length

/-- CPython autojunk heuristic: with `isjunk = None`, an element of `b` is
purged from `b2j` iff `len(b) >= 200` and it occurs more than
`len(b) // 100 + 1` times. -/
def isPopular (b : List Char) (c : Char) : Bool :=
  decide (200 ≤ b.length) && decide (b.length / 100 + 1 < countElem b c)

/-- The `b2j` mapping of `SequenceMatcher` after autojunk purging
(`bjunk` itself is empty because `isjunk = None`). -/
def b2j (b : List Char) (c : Char) : List Nat :=
  if isPopular b c then [] else indicesOf b c

/-- Lookup in the `j2len` association list, defaulting to 0 like
`dict.get(j, 0)`. -/
def j2get (l : List (Nat × Nat)) (j : Nat) : Nat :=
  ((l.find? (fun p => p.1 == j)).map Prod.snd).getD 0

/-- A `(besti, bestj, bestsize)` triple as returned by
`find_longest_match`. -/
structure MatchTriple where
  besti : Nat
  bestj : Nat
  size : Nat
deriving DecidableEq, Repr

/-- Inner loop of `find_longest_match`: `for j in b2j.get(a[i], [])`, with
`continue` below `blo` and `break` at `bhi`.  `old` is the previous row
(`j2len`), the result accumulates the new row (`newj2len`) and the best
triple (`if k > bestsize` is a strict comparison in CPython). -/
def innerLoop (blo bhi i : Nat) (old : List (Nat × Nat)) :
    List Nat → List (Nat × Nat) → MatchTriple → List (Nat × Nat) × MatchTriple
  | [], new, best => (new, best)
  | j :: js, new, best =>
    if j < blo then innerLoop blo bhi i old js new best
    else if bhi ≤ j then (new, best)
    else
      let k := (if j = 0 then 0 else j2get old (j - 1)) + 1
      let new2 := (j, k) :: new
      let best2 := if best.size < k then MatchTriple.mk (i + 1 - k) (j + 1 - k) k else best
      innerLoop blo bhi i old js new2 best2

/-- Outer loop of `find_longest_match` over `i in range(alo, ahi)`; the
fuel argument is exactly `ahi - alo` at the call site. -/
def flmLoop (a b : List Char) (blo bhi : Nat) :
    Nat → Nat → List (Nat × Nat) → MatchTriple → MatchTriple
  | _, 0, _, best => best
  | i, fuel + 1, old, best =>
    let pr := innerLoop blo bhi i old (b2j b (charAt a i)) [] best
    flmLoop a b blo bhi (i + 1) fuel pr.1 pr.2

/-- The first `while` of `find_longest_match`: extend the match to the left
over equal (non-junk; `bjunk` is empty here) elements.  Structural
recursion on `besti`, which strictly decreases. -/
def extendLeft (a b : List Char) (alo blo : Nat) : Nat → Nat → Nat → MatchTriple
  | 0, bestj, size => ⟨0, bestj, size⟩
  | bi + 1, bestj, size =>
    if decide (alo < bi + 1) && decide (blo < bestj)
        && (charAt a bi == charAt b (bestj - 1)) then
      extendLeft a b alo blo bi (bestj - 1) (size + 1)
    else ⟨bi + 1, bestj, size⟩

/-- The second `while` of `find_longest_match`: extend to the right.  The
fuel is `ahi` at the call site, an upper bound on the number of
iterations since `besti + size < ahi` throughout. -/
def extendRight (a b : List Char) (ahi bhi besti bestj : Nat) : Nat → Nat → Nat
  | 0, size => size
  | fuel + 1, size =>
    if decide (besti + size < ahi) && decide (bestj + size < bhi)
        && (charAt a (besti + size) == charAt b (bestj + size)) then
      extendRight a b ahi bhi besti bestj fuel (size + 1)
    else size

/-- Model of `SequenceMatcher.find_longest_match(alo, ahi, blo, bhi)` with
`isjunk = None`: the dynamic-programming loop followed by the two
non-junk extension `while`s (the two junk-extension `while`s are dead
code when `bjunk` is empty). -/
def findLongestMatch (a b : List Char) (alo ahi blo bhi : Nat) : MatchTriple :=
  let m0 := flmLoop a b blo bhi alo (ahi - alo) [] ⟨alo, blo, 0⟩
  let m1 := extendLeft a b alo blo m0.besti m0.bestj m0.size
  ⟨m1.besti, m1.bestj, extendRight a b ahi bhi m1.besti m1.bestj ahi m1.size⟩

/-- Total size of all matching blocks found by the recursive
decomposition of `get_matching_blocks` (the queue order and the final
merge of adjacent blocks do not affect the sum, which is all `ratio`
uses).  Each recursive call strictly shrinks `(ahi-alo)+(bhi-blo)`, so
fuel `len(a)+len(b)+1` at the call site never runs out. -/
def matchesFuel (a b : List Char) : Nat → Nat → Nat → Nat → Nat → Nat
  | 0, _, _, _, _ => 0
  | fuel + 1, alo, ahi, blo, bhi =>
    let m := findLongestMatch a b alo ahi blo bhi
    if m.size = 0 then 0
    else
      m.size
      + (if decide (alo < m.besti) && decide (blo < m.bestj) then
          matchesFuel a b fuel alo m.besti blo m.bestj
        else 0)
      + (if decide (m.besti + m.size < ahi) && decide (m.bestj + m.size < bhi) then
          matchesFuel a b fuel (m.besti + m.size) ahi (m.bestj + m.size) bhi
        else 0)

/-- Total `matches = sum(size for block in get_matching_blocks())`. -/
def matchesCount (a b : List Char) : Nat :=
  matchesFuel a b (a.length + b.length + 1) 0 a.length 0 b.length

/-- Model of `SequenceMatcher.ratio()`: `2*M/T`, and 1.0 when both sequences are
empty (`_calculate_ratio`).  Built with `mkRat` so that it evaluates by
kernel reduction. -/
def ratioQ (a b : List Char) : ℚ :=
  if a.length + b.length = 0 then 1
  else mkRat (2 * matchesCount a b) (a.length + b.length)

/-- The fixed `get_close_matches` cutoff, 0.6 on the 0–1 similarity
scale. -/
def cutoff : ℚ := mkRat 3 5

/-- Python string `<` (lexicographic by code point). -/
def strLtB : List Char → List Char → Bool
  | _, [] => false
  | [], _ :: _ => true
  | c :: cs, d :: ds =>
    if c.toNat < d.toNat then true
    else if d.toNat < c.toNat then false
    else strLtB cs ds

/-- Python `<` on `(score, string)` pairs, as used by `max` inside
`heapq.nlargest(1, ...)`. -/
def tupLtB (p q : ℚ × List Char) : Bool :=
  decide (p.1 < q.1) || (decide (p.1 = q.1) && strLtB p.2 q.2)

/-- Python `max(p :: l)`: fold keeping the current maximum, replacing it
only when the next element is strictly greater. -/
def pyMax (p : ℚ × List Char) (l : List (ℚ × List Char)) : ℚ × List Char :=
  l.foldl (fun acc q => if tupLtB acc q then q else acc) p

/-- Model of `difflib.get_close_matches(word, possibilities, n=1, cutoff=0.6)`.
The `real_quick_ratio`/`quick_ratio` pre-filters are upper bounds of
`ratio` and hence do not change the filtered set; `nlargest(1, ...)`
is `max` on `(score, candidate)` tuples. -/
def getCloseMatches1 (word : List Char) (possibilities : List (List Char)) :
    Option (List Char) :=
  match possibilities.filterMap (fun x =>
      if cutoff ≤ ratioQ x word then some (ratioQ x word, x) else none) with
  | [] => none
  | p :: ps => some (pyMax p ps).2

end Difflib

example : Difflib.ratioQ (s2l "ab") (s2l "a") = mkRat 2 3 := by decide
example : Difflib.ratioQ (s2l "abcd") (s2l "bcde") = mkRat 3 4 := by decide
example : Difflib.ratioQ [] [] = 1 := by decide
example : Difflib.getCloseMatches1 (s2l "a") [s2l "ab", s2l "ac"] = some (s2l "ac") := by decide
example : Difflib.getCloseMatches1 (s2l "zz") [s2l "ab"] = none := by decide

/-! ## Shared data model for the catalog loaders and resolvers -/

/-- Outcome of a catalog load: either the loaded value, or the
`{"error": msg}` dictionary the loaders return on failure. -/
inductive LoadResult (α : Type) where
  | ok (val : α)
  | error (msg : String)
deriving DecidableEq

/-- Result dictionaries of `check_url_support` (identical in
`aci_agent.py` and `ise_agent.py`): the pass-through of a load-failure
dictionary, the `supported` dictionary with `closest_url` and
`closest_name`, or the `unsupported` dictionary (whose message embeds the
attempted input). -/
inductive UrlSupportResult where
  | loadError (msg : String)
  | supported (closest_url closest_name : List Char)
  | unsupported (input : List Char)
deriving DecidableEq

/-- Lookup `[entry[1] for entry in url_list if entry[0] == closest_url][0]`:
display name of the first catalog entry carrying the given URL. -/
def firstNameFor (cat : List (List Char × List Char)) (u : List Char) : List Char :=
  ((cat.find? (fun e => e.1 == u)).map Prod.snd).getD []

/-- Lookup `[entry[0] for entry in url_list if entry[1] == closest_name][0]`:
URL of the first catalog entry carrying the given display name. -/
def firstUrlFor (cat : List (List Char × List Char)) (nm : List Char) : List Char :=
  ((cat.find? (fun e => e.2 == nm)).map Prod.fst).getD []

/-- A raw record of the `aci_urls.json` / `ise_urls.json` catalog file:
here `entry[URL]` raises `KeyError` when absent (hence `Option`), while
the `Name` lookup via `.get` defaults to the empty string. -/
structure RawUrlEntry where
  url : Option (List Char)
  name : Option (List Char)

/-- Environment model of the catalog file: missing file, a read/parse
exception, or successfully parsed JSON records. -/
inductive UrlFileOutcome where
  | missing
  | unreadableOrMalformed (msg : String)
  | content (entries : List RawUrlEntry)

/-- The tuple-extraction comprehension of `load_urls`: `none` models the
`KeyError` raised at the first record without a `URL` field. -/
def extractUrlEntries : List RawUrlEntry → Option (List (List Char × List Char))
  | [] => some []
  | e :: es =>
    match e.url with
    | none => none
    | some u => (extractUrlEntries es).map (fun rest => (u, e.name.getD []) :: rest)

namespace ACI

/-- Function `load_urls` of `aci_agent.py`: returns an `{"error": ...}` dictionary
when the file is missing or any step of reading/parsing/extraction
raises, else the list of `(URL, Name)` tuples. -/
def load_urls (f : UrlFileOutcome) : LoadResult (List (List Char × List Char)) :=
  match f with
  | .missing => .error "URLs file aci_urls.json not found."
  | .unreadableOrMalformed m => .error ("Error loading URLs: " ++ m)
  | .content entries =>
    match extractUrlEntries entries with
    | none => .error "Error loading URLs: KeyError URL"
    | some lst => .ok lst

/-- Function `check_url_support` of `aci_agent.py`.  `"error" in url_list` is a
key test on the error dictionary (true) but an element test on a list of
tuples (always false), so a load failure is passed through unchanged and
a loaded catalog always proceeds to matching. -/
def check_url_support (load : LoadResult (List (List Char × List Char)))
    (api_url : List Char) : UrlSupportResult :=
  match load with
  | .error msg => .loadError msg
  | .ok url_list =>
    match Difflib.getCloseMatches1 api_url (url_list.map Prod.fst) with
    | some closest_url => .supported closest_url (firstNameFor url_list closest_url)
    | none =>
      match Difflib.getCloseMatches1 api_url (url_list.map Prod.snd) with
      | some closest_name => .supported (firstUrlFor url_list closest_name) closest_name
      | none => .unsupported api_url

end ACI

namespace ISE

/-- Function `load_urls` of `ise_agent.py` (same code as the ACI loader, reading
`ise_urls.json`). -/
def load_urls (f : UrlFileOutcome) : LoadResult (List (List Char × List Char)) :=
  match f with
  | .missing => .error "URLs file ise_urls.json not found."
  | .unreadableOrMalformed m => .error ("Error loading URLs: " ++ m)
  | .content entries =>
    match extractUrlEntries entries with
    | none => .error "Error loading URLs: KeyError URL"
    | some lst => .ok lst

/-- Function `check_url_support` of `ise_agent.py`, textually identical to the ACI
version. -/
def check_url_support (load : LoadResult (List (List Char × List Char)))
    (api_url : List Char) : UrlSupportResult :=
  match load with
  | .error msg => .loadError msg
  | .ok url_list =>
    match Difflib.getCloseMatches1 api_url (url_list.map Prod.fst) with
    | some closest_url => .supported closest_url (firstNameFor url_list closest_url)
    | none =>
      match Difflib.getCloseMatches1 api_url (url_list.map Prod.snd) with
      | some closest_name => .supported (firstUrlFor url_list closest_name) closest_name
      | none => .unsupported api_url

end ISE

/-- Return value of the `check_supported_url_tool` wrappers: on a
`supported` resolution the tool returns a dictionary embedding an
`action` object (`next_tool`, `input`) — it does not call the read tool;
every other resolution result is returned untouched. -/
inductive UrlToolResult where
  | directive (next_tool : String) (input closest_name : List Char)
  | res (r : UrlSupportResult)
deriving DecidableEq

/-- Tool `check_supported_url_tool` of `aci_agent.py`: wraps
`check_url_support`; on `supported` it returns the action directive
naming `get_aci_data_tool` with the resolved URL as input. -/
def ACI.check_supported_url_tool (load : LoadResult (List (List Char × List Char)))
    (api_url : List Char) : UrlToolResult :=
  match ACI.check_url_support load api_url with
  | .supported u n => .directive "get_aci_data_tool" u n
  | r => .res r

/-- Tool `check_supported_url_tool` of `ise_agent.py`: identical wrapper, with
`get_ise_data_tool` as the next tool. -/
def ISE.check_supported_url_tool (load : LoadResult (List (List Char × List Char)))
    (api_url : List Char) : UrlToolResult :=
  match ISE.check_url_support load api_url with
  | .supported u n => .directive "get_ise_data_tool" u n
  | r => .res r

/-- Result of `process_agent_response` (`aci_agent.py`): either the
response of invoking the next tool named by a directive, or the original
response passed through. -/
inductive ProcResult (α : Type) where
  | invoked (out : α)
  | passthrough (r : UrlToolResult)
deriving DecidableEq

/-- Function `process_agent_response` of `aci_agent.py`: when the response carries
`status == "supported"` and an `action` with a `next_tool`, it invokes
that tool on the input of the action; otherwise it returns the response. -/
def process_agent_response {α : Type} (invoke : String → List Char → α)
    (response : UrlToolResult) : ProcResult α :=
  match response with
  | .directive next_tool input _ => .invoked (invoke next_tool input)
  | r => .passthrough r

namespace IOSXE

/-- A raw record of `ios_xe_commands.json`: here `entry[command]` raises
`KeyError` when the field is absent. -/
structure RawCmdEntry where
  command : Option (List Char)

/-- Environment model of the command-catalog file. -/
inductive CmdFileOutcome where
  | missing
  | unreadableOrMalformed (msg : String)
  | content (entries : List RawCmdEntry)

/-- The per-entry `command` extraction comprehension of the loader. -/
def extractCmdEntries : List RawCmdEntry → Option (List (List Char))
  | [] => some []
  | e :: es =>
    match e.command with
    | none => none
    | some c => (extractCmdEntries es).map (fun rest => c :: rest)

/-- Function `load_supported_commands` of `ios_xe_agent.py`. -/
def load_supported_commands (f : CmdFileOutcome) : LoadResult (List (List Char)) :=
  match f with
  | .missing => .error "Supported commands file ios_xe_commands.json not found."
  | .unreadableOrMalformed m => .error ("Error loading supported commands: " ++ m)
  | .content entries =>
    match extractCmdEntries entries with
    | none => .error "Error loading supported commands: KeyError command"
    | some lst => .ok lst

/-- Result dictionaries of `check_command_support`; `rawList` is the
branch where `"error" in command_list` is true on a successfully loaded
list — an element test — and the raw command list itself is returned. -/
inductive CommandSupportResult where
  | loadError (msg : String)
  | rawList (cmds : List (List Char))
  | supported (closest_command : List Char)
  | unsupported (command : List Char)
deriving DecidableEq

/-- Function `check_command_support` of `ios_xe_agent.py`.  On a load-failure
dictionary, `"error" in command_list` is a key test (true); on a loaded
list it is an element test, true exactly when some catalog command equals
the string `"error"`, in which case the raw list is returned in place of
a tagged result. -/
def check_command_support (load : LoadResult (List (List Char)))
    (command : List Char) : CommandSupportResult :=
  match load with
  | .error msg => .loadError msg
  | .ok command_list =>
    if command_list.contains (s2l "error") then .rawList command_list
    else
      match Difflib.getCloseMatches1 command command_list with
      | some closest_command => .supported closest_command
      | none => .unsupported command

/-- Return value of `check_supported_command_tool`: the action directive
on `supported`, the result passed through otherwise; `raised` models the
`AttributeError` from `result.get` when `check_command_support` returned
a bare list. -/
inductive CmdToolResult where
  | directive (next_tool : String) (input : List Char)
  | res (r : CommandSupportResult)
  | raised (msg : String)
deriving DecidableEq

/-- Tool `check_supported_command_tool` of `ios_xe_agent.py`: on `supported`
it returns the directive naming `run_show_command_tool`; a bare-list
result has no `.get` method, so the tool raises. -/
def check_supported_command_tool (load : LoadResult (List (List Char)))
    (command : List Char) : CmdToolResult :=
  match check_command_support load command with
  | .supported c => .directive "run_show_command_tool" c
  | .rawList _ => .raised "AttributeError: list object has no attribute get"
  | r => .res r

/-! ### Device automation (pyATS) -/

/-- Events recorded when a device-automation function runs; each event is
emitted when the corresponding pyATS call returns without raising. -/
inductive DevEvent where
  | loadTestbed
  | connect
  | getParserEv
  | parseEv
  | configureEv
  | executeEv
  | disconnect
deriving DecidableEq, Repr

/-- Outcome oracle for the pyATS environment: each field gives the result
of the corresponding call (`Except.error` models a raised exception;
`getParser` yields whether a parser object (`true`) or `None` (`false`)
is returned). -/
structure DevOracle where
  loadTestbed : Except String Unit
  connect : Except String Unit
  getParser : List Char → Except String Bool
  parse : List Char → Except String String
  configure : List Char → Except String Unit
  execute : List Char → Except String String
  disconnect : Except String Unit

/-- Denylist `disallowed_modifiers` of `run_show_command`. -/
def disallowed_modifiers : List (List Char) :=
  [s2l "|", s2l "include", s2l "exclude", s2l "begin", s2l "redirect", s2l ">", s2l "<"]

/-- Whether `needle` starts `hay` (Bool-valued helper for the substring
test). -/
def startsWithL : List Char → List Char → Bool
  | [], _ => true
  | _ :: _, [] => false
  | c :: cs, d :: ds => c == d && startsWithL cs ds

/-- The Python `needle in hay` substring test. -/
def hasSub (needle : List Char) : List Char → Bool
  | [] => needle.isEmpty
  | c :: cs => startsWithL needle (c :: cs) || hasSub needle cs

/-- The first denylisted modifier occurring in the command, in denylist
order — the one named by the error dictionary of `run_show_command`. -/
def firstDisallowed (command : List Char) : Option (List Char) :=
  disallowed_modifiers.find? (fun m => hasSub m command)

/-- Results of `run_show_command`: the pre-flight modifier rejection, the
no-parser error dictionary, a generic `{"error": str(e)}` dictionary, or
the parsed output. -/
inductive ShowResult where
  | validationError (command modifier : List Char)
  | noParser (command : List Char)
  | errorMsg (msg : String)
  | parsed (out : String)
deriving DecidableEq

/-- Function `run_show_command` of `ios_xe_agent.py`, returning its result paired
with the trace of completed pyATS calls.  The denylist is checked before
anything else; there is no `finally`, so the paths that fail after
`connect` (including the `parser is None` early return) end without a
`disconnect` event. -/
def run_show_command (o : DevOracle) (command : List Char) : ShowResult × List DevEvent :=
  match firstDisallowed command with
  | some m => (.validationError command m, [])
  | none =>
    match o.loadTestbed with
    | .error e => (.errorMsg e, [])
    | .ok _ =>
      match o.connect with
      | .error e => (.errorMsg e, [.loadTestbed])
      | .ok _ =>
        match o.getParser command with
        | .error e => (.errorMsg e, [.loadTestbed, .connect])
        | .ok false => (.noParser command, [.loadTestbed, .connect, .getParserEv])
        | .ok true =>
          match o.parse command with
          | .error e => (.errorMsg e, [.loadTestbed, .connect, .getParserEv])
          | .ok out =>
            match o.disconnect with
            | .error e =>
              (.errorMsg e, [.loadTestbed, .connect, .getParserEv, .parseEv])
            | .ok _ =>
              (.parsed out, [.loadTestbed, .connect, .getParserEv, .parseEv, .disconnect])

/-- Results of `apply_device_configuration`: the success dictionary or a
generic error dictionary.  The function performs no input validation. -/
inductive ConfigResult where
  | errorMsg (msg : String)
  | success
deriving DecidableEq

/-- Function `apply_device_configuration` of `ios_xe_agent.py`: load, connect,
configure, disconnect, with no denylist check and no `finally`. -/
def apply_device_configuration (o : DevOracle) (config_commands : List Char) :
    ConfigResult × List DevEvent :=
  match o.loadTestbed with
  | .error e => (.errorMsg e, [])
  | .ok _ =>
    match o.connect with
    | .error e => (.errorMsg e, [.loadTestbed])
    | .ok _ =>
      match o.configure config_commands with
      | .error e => (.errorMsg e, [.loadTestbed, .connect])
      | .ok _ =>
        match o.disconnect with
        | .error e => (.errorMsg e, [.loadTestbed, .connect, .configureEv])
        | .ok _ => (.success, [.loadTestbed, .connect, .configureEv, .disconnect])

/-- Results of `execute_show_run` / `execute_show_logging`. -/
inductive ExecResult where
  | errorMsg (msg : String)
  | output (out : String)
deriving DecidableEq

/-- Function `execute_show_run` of `ios_xe_agent.py`: load, connect,
execute `show run brief`, disconnect, no `finally`. -/
def execute_show_run (o : DevOracle) : ExecResult × List DevEvent :=
  match o.loadTestbed with
  | .error e => (.errorMsg e, [])
  | .ok _ =>
    match o.connect with
    | .error e => (.errorMsg e, [.loadTestbed])
    | .ok _ =>
      match o.execute (s2l "show run brief") with
      | .error e => (.errorMsg e, [.loadTestbed, .connect])
      | .ok out =>
        match o.disconnect with
        | .error e => (.errorMsg e, [.loadTestbed, .connect, .executeEv])
        | .ok _ => (.output out, [.loadTestbed, .connect, .executeEv, .disconnect])

/-- Function `execute_show_logging` of `ios_xe_agent.py`: load, connect,
execute `show logging last 250`, disconnect, no `finally`. -/
def execute_show_logging (o : DevOracle) : ExecResult × List DevEvent :=
  match o.loadTestbed with
  | .error e => (.errorMsg e, [])
  | .ok _ =>
    match o.connect with
    | .error e => (.errorMsg e, [.loadTestbed])
    | .ok _ =>
      match o.execute (s2l "show logging last 250") with
      | .error e => (.errorMsg e, [.loadTestbed, .connect])
      | .ok out =>
        match o.disconnect with
        | .error e => (.errorMsg e, [.loadTestbed, .connect, .executeEv])
        | .ok _ => (.output out, [.loadTestbed, .connect, .executeEv, .disconnect])

end IOSXE

/-! ### `create_aci_data_tool` (ACI write path) -/

/-- Python/JSON values as far as `create_aci_data_tool` inspects them:
enough structure to decide truthiness and `isinstance(payload, dict)`. -/
inductive PyVal where
  | str (s : List Char)
  | int (n : Int)
  | bool (b : Bool)
  | list (len : Nat)
  | dict (d : List (List Char × PyVal))
  | nullV

/-- Python truthiness of a value (`not v` is its negation). -/
def pyFalsy : PyVal → Bool
  | .str s => s.isEmpty
  | .int n => n == 0
  | .bool b => !b
  | .list len => len == 0
  | .dict d => d.isEmpty
  | .nullV => true

/-- Test `isinstance(v, dict)`. -/
def isDictB : PyVal → Bool
  | .dict _ => true
  | _ => false

/-- Dictionary lookup `data.get(key)`: `none` models the Python `None` for an absent key
(JSON object keys are unique, so first-match lookup is exact). -/
def pyGet (d : List (List Char × PyVal)) (k : List Char) : Option PyVal :=
  ((d.find? (fun e => e.1 == k)).map Prod.snd)

/-- Truthiness of `data.get(key)` (where `None` is falsy). -/
def falsyOpt : Option PyVal → Bool
  | none => true
  | some v => pyFalsy v

namespace ACI

/-- Network oracle for the ACI backend: outcome of `ACIController`
authentication (`get_token`) and of the POST. -/
structure NetOracle where
  auth : Except String Unit
  post : Except String String

/-- Results of `create_aci_data_tool`: the `{"error": ...}` dictionary
produced by the blanket `except`, or the backend JSON response. -/
inductive CreateResult where
  | errorRes (msg : String)
  | response (body : String)
deriving DecidableEq

/-- Whether a create result is the error dictionary. -/
def isErrorRes : CreateResult → Bool
  | .errorRes _ => true
  | .response _ => false

/-- Tool `create_aci_data_tool` of `aci_agent.py`, paired with a flag telling
whether any network I/O (`ACIController` authentication / POST) was
attempted.  `parsed` is the outcome of `json.loads(input)`; a non-dict
JSON value has no `.get`, raising `AttributeError` inside the blanket
`except`.  The presence check `if not api_url or not payload` fires on
absent *and* falsy values; the `isinstance` check then rejects non-dict
payloads — all before any `ACIController` is constructed. -/
def create_aci_data_tool (parsed : Except String PyVal) (net : NetOracle) :
    CreateResult × Bool :=
  match parsed with
  | .error e => (.errorRes ("An unexpected error occurred: " ++ e), false)
  | .ok v =>
    match v with
    | .dict data =>
      if falsyOpt (pyGet data (s2l "api_url")) || falsyOpt (pyGet data (s2l "payload")) then
        (.errorRes "An unexpected error occurred: Both api_url and payload must be provided.",
          false)
      else
        match pyGet data (s2l "payload") with
        | some (.dict _) =>
          match net.auth with
          | .error e => (.errorRes ("An unexpected error occurred: " ++ e), true)
          | .ok _ =>
            match net.post with
            | .error e => (.errorRes ("An unexpected error occurred: " ++ e), true)
            | .ok body => (.response body, true)
        | _ =>
          (.errorRes "An unexpected error occurred: Payload must be a dictionary.", false)
    | _ => (.errorRes "An unexpected error occurred: AttributeError", false)

end ACI

/-! ### Spec-side composite for claim C2 -/

/-- Common result type to compare the chain tool of the code with the
spec description of `resolveAndChain`. -/
inductive ChainOutcome where
  | downstream (body : String)
  | actionDirective (next_tool : String) (input closest_name : List Char)
  | resolution (r : UrlSupportResult)
deriving DecidableEq

/-- The implemented `check_supported_url_tool` (ACI), injected into
`ChainOutcome` for comparison. -/
def aciChainOutcome (load : LoadResult (List (List Char × List Char)))
    (api_url : List Char) : ChainOutcome :=
  match ACI.check_supported_url_tool load api_url with
  | .directive t u n => .actionDirective t u n
  | .res r => .resolution r

/-- Modelled from the spec: `resolveAndChain(query)` "on `Supported`,
immediately invokes the paired `read` operation … using the resolved
identifier as input, and returns that downstream result rather than the
bare resolution"; on `Unsupported` or `LoadError` it returns the
resolution untouched.  `read` stands for `get_aci_data_tool`. -/
def resolveAndChainSpec (read : List Char → String)
    (load : LoadResult (List (List Char × List Char)))
    (api_url : List Char) : ChainOutcome :=
  match ACI.check_url_support load api_url with
  | .supported u _ => .downstream (read u)
  | r => .resolution r

/-! ## Helper lemmas about the fuzzy matcher -/

namespace Difflib

theorem strLtB_irrefl (s : List Char) : strLtB s s = false := by
  induction s with
  | nil => rfl
  | cons c cs ih => simp [strLtB, ih]

theorem strLtB_cons (x y : Char) (xs ys : List Char) :
    strLtB (x :: xs) (y :: ys)
      = (decide (x.toNat < y.toNat) || (decide (x.toNat = y.toNat) && strLtB xs ys)) := by
  simp only [strLtB]
  by_cases h1 : x.toNat < y.toNat
  · simp [h1]
  · by_cases h2 : y.toNat < x.toNat
    · have hne : ¬ x.toNat = y.toNat := by omega
      simp [h1, h2, hne]
    · have heq : x.toNat = y.toNat := by omega
      simp [h1, h2, heq]

theorem strLtB_trans (a : List Char) :
    ∀ b c, strLtB a b = true → strLtB b c = true → strLtB a c = true := by
  induction a with
  | nil =>
    intro b c hab hbc
    cases b with
    | nil => simp [strLtB] at hab
    | cons y ys =>
      cases c with
      | nil => simp [strLtB] at hbc
      | cons z zs => simp [strLtB]
  | cons x xs ih =>
    intro b c hab hbc
    cases b with
    | nil => simp [strLtB] at hab
    | cons y ys =>
      cases c with
      | nil => simp [strLtB] at hbc
      | cons z zs =>
        rw [strLtB_cons] at hab hbc ⊢
        simp only [Bool.or_eq_true, Bool.and_eq_true, decide_eq_true_eq] at hab hbc ⊢
        rcases hab with hab | ⟨habe, habs⟩ <;> rcases hbc with hbc | ⟨hbce, hbcs⟩
        · exact Or.inl (by omega)
        · exact Or.inl (by omega)
        · exact Or.inl (by omega)
        · exact Or.inr ⟨by omega, ih ys zs habs hbcs⟩

theorem charToNat_inj {c d : Char} (h : c.toNat = d.toNat) : c = d :=
  Char.ext (UInt32.ext h)

theorem strLtB_total (a : List Char) :
    ∀ b, strLtB a b = true ∨ strLtB b a = true ∨ a = b := by
  induction a with
  | nil =>
    intro b
    cases b with
    | nil => exact Or.inr (Or.inr rfl)
    | cons y ys => exact Or.inl rfl
  | cons x xs ih =>
    intro b
    cases b with
    | nil => exact Or.inr (Or.inl rfl)
    | cons y ys =>
      rcases Nat.lt_trichotomy x.toNat y.toNat with h | h | h
      · exact Or.inl (by rw [strLtB_cons]; simp [h])
      · rcases ih ys with h2 | h2 | h2
        · exact Or.inl (by rw [strLtB_cons]; simp [h, h2])
        · exact Or.inr (Or.inl (by rw [strLtB_cons]; simp [h.symm, h2]))
        · exact Or.inr (Or.inr (by rw [charToNat_inj h, h2]))
      · exact Or.inr (Or.inl (by rw [strLtB_cons]; simp [h]))

theorem tupLtB_irrefl (p : ℚ × List Char) : tupLtB p p = false := by
  unfold tupLtB
  simp [strLtB_irrefl, lt_irrefl]

theorem tupLtB_trans {p q r : ℚ × List Char} (h1 : tupLtB p q = true)
    (h2 : tupLtB q r = true) : tupLtB p r = true := by
  unfold tupLtB at h1 h2 ⊢
  simp only [Bool.or_eq_true, Bool.and_eq_true, decide_eq_true_eq] at h1 h2 ⊢
  rcases h1 with h1 | ⟨h1e, h1s⟩ <;> rcases h2 with h2 | ⟨h2e, h2s⟩
  · exact Or.inl (lt_trans h1 h2)
  · exact Or.inl (h2e ▸ h1)
  · exact Or.inl (h1e ▸ h2)
  · exact Or.inr ⟨h1e.trans h2e, strLtB_trans _ _ _ h1s h2s⟩

theorem tupLtB_total (p q : ℚ × List Char) :
    tupLtB p q = true ∨ tupLtB q p = true ∨ p = q := by
  rcases lt_trichotomy p.1 q.1 with h | h | h
  · exact Or.inl (by unfold tupLtB; simp [h])
  · rcases strLtB_total p.2 q.2 with h2 | h2 | h2
    · exact Or.inl (by unfold tupLtB; simp [h, h2])
    · exact Or.inr (Or.inl (by unfold tupLtB; simp [h.symm, h2]))
    · exact Or.inr (Or.inr (Prod.ext h h2))
  · exact Or.inr (Or.inl (by unfold tupLtB; simp [h]))

theorem pyMax_cons (p q : ℚ × List Char) (l : List (ℚ × List Char)) :
    pyMax p (q :: l) = pyMax (if tupLtB p q then q else p) l := rfl

theorem pyMax_mem (l : List (ℚ × List Char)) :
    ∀ p, pyMax p l = p ∨ pyMax p l ∈ l := by
  induction l with
  | nil => intro p; exact Or.inl rfl
  | cons q l ih =>
    intro p
    rw [pyMax_cons]
    by_cases hpq : tupLtB p q = true
    · rw [if_pos hpq]
      rcases ih q with h | h
      · rw [h]; exact Or.inr (List.mem_cons_self q l)
      · exact Or.inr (List.mem_cons_of_mem q h)
    · rw [if_neg hpq]
      rcases ih p with h | h
      · exact Or.inl h
      · exact Or.inr (List.mem_cons_of_mem q h)

theorem pyMax_not_lt (l : List (ℚ × List Char)) :
    ∀ p y, (y = p ∨ y ∈ l) → tupLtB (pyMax p l) y = false := by
  induction l with
  | nil =>
    intro p y hy
    rcases hy with h | h
    · rw [h]; exact tupLtB_irrefl p
    · cases h
  | cons q l ih =>
    intro p y hy
    rw [pyMax_cons]
    have hyy : y = q ∨ (y = p ∨ y ∈ l) := by
      rcases hy with h | h
      · exact Or.inr (Or.inl h)
      · rcases List.mem_cons.mp h with h | h
        · exact Or.inl h
        · exact Or.inr (Or.inr h)
    by_cases hpq : tupLtB p q = true
    · rw [if_pos hpq]
      rcases hyy with h | h
      · exact ih q y (Or.inl h)
      · rcases h with h | h
        · by_contra hcon
          rw [Bool.not_eq_false] at hcon
          have h1 : tupLtB (pyMax q l) q = false := ih q q (Or.inl rfl)
          have h2 : tupLtB (pyMax q l) q = true := tupLtB_trans (h ▸ hcon) hpq
          rw [h2] at h1
          cases h1
        · exact ih q y (Or.inr h)
    · rw [if_neg hpq]
      rcases hyy with h | h
      · by_contra hcon
        rw [Bool.not_eq_false] at hcon
        have h1 : tupLtB (pyMax p l) p = false := ih p p (Or.inl rfl)
        rcases tupLtB_total p q with h2 | h2 | h2
        · exact hpq h2
        · have h3 : tupLtB (pyMax p l) p = true := tupLtB_trans (h ▸ hcon) h2
          rw [h3] at h1
          cases h1
        · rw [h, ← h2] at hcon
          rw [hcon] at h1
          cases h1
      · rcases h with h | h
        · exact ih p y (Or.inl h)
        · exact ih p y (Or.inr h)

/-- The candidate filter of `get_close_matches`. -/
def gcmFilter (w : List Char) (x : List Char) : Option (ℚ × List Char) :=
  if cutoff ≤ ratioQ x w then some (ratioQ x w, x) else none

theorem getCloseMatches1_eq (w : List Char) (ps : List (List Char)) :
    getCloseMatches1 w ps
      = (match ps.filterMap (gcmFilter w) with
        | [] => none
        | p :: l => some (pyMax p l).2) := rfl

theorem gcmFilter_eq_none_iff (w x : List Char) :
    gcmFilter w x = none ↔ ¬ cutoff ≤ ratioQ x w := by
  unfold gcmFilter
  split <;> simp_all

theorem gcmFilter_eq_some (w x : List Char) {p : ℚ × List Char}
    (h : gcmFilter w x = some p) : p = (ratioQ x w, x) ∧ cutoff ≤ ratioQ x w := by
  unfold gcmFilter at h
  split at h
  · cases h; exact ⟨rfl, by assumption⟩
  · cases h

theorem getCloseMatches1_none_iff (w : List Char) (ps : List (List Char)) :
    getCloseMatches1 w ps = none ↔ ∀ x ∈ ps, ¬ cutoff ≤ ratioQ x w := by
  rw [getCloseMatches1_eq]
  rcases hfil : ps.filterMap (gcmFilter w) with _ | ⟨p, l⟩
  · simp only [true_iff]
    intro x hx
    rw [← gcmFilter_eq_none_iff]
    exact (List.filterMap_eq_nil_iff.mp hfil) x hx
  · simp only [reduceCtorEq, false_iff, not_forall]
    have hp : p ∈ ps.filterMap (gcmFilter w) := by rw [hfil]; exact List.mem_cons_self p l
    rcases List.mem_filterMap.mp hp with ⟨a, ha, hfa⟩
    rcases gcmFilter_eq_some w a hfa with ⟨rfl, hth⟩
    exact ⟨a, ha, by simpa using hth⟩

theorem getCloseMatches1_some (w : List Char) (ps : List (List Char))
    {x : List Char} (h : getCloseMatches1 w ps = some x) :
    x ∈ ps ∧ cutoff ≤ ratioQ x w ∧
      ∀ y ∈ ps, cutoff ≤ ratioQ y w →
        tupLtB (ratioQ x w, x) (ratioQ y w, y) = false := by
  rw [getCloseMatches1_eq] at h
  rcases hfil : ps.filterMap (gcmFilter w) with _ | ⟨p, l⟩
  · rw [hfil] at h
    cases h
  · rw [hfil] at h
    simp only [Option.some.injEq] at h
    have hR : pyMax p l ∈ ps.filterMap (gcmFilter w) := by
      rw [hfil]
      rcases pyMax_mem l p with h2 | h2
      · rw [h2]; exact List.mem_cons_self p l
      · exact List.mem_cons_of_mem p h2
    rcases List.mem_filterMap.mp hR with ⟨a, ha, hfa⟩
    rcases gcmFilter_eq_some w a hfa with ⟨hpair, hth⟩
    have hxa : x = a := by rw [← h, hpair]
    subst hxa
    refine ⟨ha, hth, ?_⟩
    intro y hy hcy
    have hyfil : (ratioQ y w, y) ∈ ps.filterMap (gcmFilter w) :=
      List.mem_filterMap.mpr ⟨y, hy, by unfold gcmFilter; rw [if_pos hcy]⟩
    rw [hfil] at hyfil
    have hnl := pyMax_not_lt l p (ratioQ y w, y)
      (by rcases List.mem_cons.mp hyfil with h2 | h2
          · exact Or.inl h2
          · exact Or.inr h2)
    rw [hpair] at hnl
    exact hnl

end Difflib

/-! ## Auxiliary predicates and concrete environments used by the claims -/

/-- A resolution result that is not `supported` (the claim wording:
`Unsupported` or `LoadError`). -/
def isUnresolvedUrl : UrlSupportResult → Bool
  | .loadError _ => true
  | .unsupported _ => true
  | .supported _ _ => false

namespace IOSXE

/-- A command resolution that is `Unsupported` or `LoadError` (the
raw-list branch is neither). -/
def isUnresolvedCmd : CommandSupportResult → Bool
  | .loadError _ => true
  | .unsupported _ => true
  | _ => false

/-- An environment in which every pyATS call succeeds. -/
def allOk : DevOracle where
  loadTestbed := .ok ()
  connect := .ok ()
  getParser := fun _ => .ok true
  parse := fun _ => .ok "PARSED"
  configure := fun _ => .ok ()
  execute := fun _ => .ok "OUTPUT"
  disconnect := .ok ()

/-- An environment in which `device.parse` raises and everything else
succeeds. -/
def parseRaises : DevOracle :=
  { allOk with parse := fun _ => .error "parse failed" }

end IOSXE

/-- A network environment in which ACI authentication and POST succeed. -/
def ACI.netOk : ACI.NetOracle where
  auth := .ok ()
  post := .ok "RESP"

/-- The load fails: the file is missing, reading/parsing raised, or some
record has no `URL` key. -/
def urlLoadFails : UrlFileOutcome → Bool
  | .missing => true
  | .unreadableOrMalformed _ => true
  | .content es => (extractUrlEntries es).isNone

/-- The `create_aci_data_tool` payload is absent or not a mapping. -/
def payloadAbsentOrNotDict (d : List (List Char × PyVal)) : Bool :=
  match pyGet d (s2l "payload") with
  | none => true
  | some v => !(isDictB v)

/-! ## Claims -/

/-- C8: given the single-entry catalog
`[("/api/node/class/topSystem.json", "Leaf Nodes")]` and the query
`"Leaf Node"`, `check_url_support` returns `supported` with that URL and
display name. -/
theorem c8_leaf_nodes_resolution :
    ACI.check_url_support
      (.ok [(s2l "/api/node/class/topSystem.json", s2l "Leaf Nodes")])
      (s2l "Leaf Node")
    = .supported (s2l "/api/node/class/topSystem.json") (s2l "Leaf Nodes") := by decide

/-- C1 (counterexample to the tie-break clause): with the catalog
`[("ab", ""), ("ac", "")]` and query `"a"`, both identifiers score
`2/3 ≥ 0.6` (equal scores), yet `check_url_support` selects `"ac"` — the
lexicographically greater string under the Python `(score, string)` tuple
`max` — not the first-in-catalog-order candidate `"ab"`. -/
theorem c1_tiebreak_counterexample :
    Difflib.ratioQ (s2l "ab") (s2l "a") = Difflib.ratioQ (s2l "ac") (s2l "a")
    ∧ Difflib.cutoff ≤ Difflib.ratioQ (s2l "ab") (s2l "a")
    ∧ ACI.check_url_support (.ok [(s2l "ab", []), (s2l "ac", [])]) (s2l "a")
        = .supported (s2l "ac") []
    ∧ ¬ ACI.check_url_support (.ok [(s2l "ab", []), (s2l "ac", [])]) (s2l "a")
        = .supported (s2l "ab") [] := by decide

/-- C1 (amended): `check_url_support` scores the query against every
identifier and, independently, every display name; an identifier match
above the cutoff always wins over a name match; when no identifier
clears the cutoff the best display name above the cutoff wins, and when
nothing clears it the result is `unsupported`.  The selected candidate
is maximal in the Python `(score, string)` tuple order — so among
equal-scoring candidates the lexicographically greatest string wins (not
the first in catalog order); only full ties fall back to first
occurrence.  The ISE resolver is the same function. -/
theorem c1_resolver_structure (cat : List (List Char × List Char)) (q : List Char) :
    (∀ u, Difflib.getCloseMatches1 q (cat.map Prod.fst) = some u →
      u ∈ cat.map Prod.fst ∧ Difflib.cutoff ≤ Difflib.ratioQ u q ∧
      (∀ v ∈ cat.map Prod.fst, Difflib.cutoff ≤ Difflib.ratioQ v q →
        Difflib.tupLtB (Difflib.ratioQ u q, u) (Difflib.ratioQ v q, v) = false) ∧
      ACI.check_url_support (.ok cat) q = .supported u (firstNameFor cat u))
    ∧ (Difflib.getCloseMatches1 q (cat.map Prod.fst) = none →
      (∀ u ∈ cat.map Prod.fst, ¬ Difflib.cutoff ≤ Difflib.ratioQ u q) ∧
      (∀ nm, Difflib.getCloseMatches1 q (cat.map Prod.snd) = some nm →
        nm ∈ cat.map Prod.snd ∧ Difflib.cutoff ≤ Difflib.ratioQ nm q ∧
        (∀ v ∈ cat.map Prod.snd, Difflib.cutoff ≤ Difflib.ratioQ v q →
          Difflib.tupLtB (Difflib.ratioQ nm q, nm) (Difflib.ratioQ v q, v) = false) ∧
        ACI.check_url_support (.ok cat) q = .supported (firstUrlFor cat nm) nm))
    ∧ (Difflib.getCloseMatches1 q (cat.map Prod.fst) = none →
       Difflib.getCloseMatches1 q (cat.map Prod.snd) = none →
       ACI.check_url_support (.ok cat) q = .unsupported q ∧
       ∀ c ∈ cat.map Prod.fst ++ cat.map Prod.snd, ¬ Difflib.cutoff ≤ Difflib.ratioQ c q)
    ∧ (∀ load q2, ISE.check_url_support load q2 = ACI.check_url_support load q2) := by
  refine ⟨?_, ?_, ?_, ?_⟩
  · intro u hu
    obtain ⟨hmem, hth, hmax⟩ := Difflib.getCloseMatches1_some q _ hu
    exact ⟨hmem, hth, hmax, by simp [ACI.check_url_support, hu]⟩
  · intro hnone
    refine ⟨(Difflib.getCloseMatches1_none_iff q _).mp hnone, ?_⟩
    intro nm hnm
    obtain ⟨hmem, hth, hmax⟩ := Difflib.getCloseMatches1_some q _ hnm
    exact ⟨hmem, hth, hmax, by simp [ACI.check_url_support, hnone, hnm]⟩
  · intro h1 h2
    refine ⟨by simp [ACI.check_url_support, h1, h2], ?_⟩
    intro c hc
    rcases List.mem_append.mp hc with hc | hc
    · exact (Difflib.getCloseMatches1_none_iff q _).mp h1 c hc
    · exact (Difflib.getCloseMatches1_none_iff q _).mp h2 c hc
  · intro load q2
    cases load <;> rfl

/-- Witness for C1 at the catalog `[("ab", "xy")]` and query `"ab"`. -/
theorem c1_resolver_structure_witness :
    s2l "ab" ∈ ([(s2l "ab", s2l "xy")].map Prod.fst)
    ∧ Difflib.cutoff ≤ Difflib.ratioQ (s2l "ab") (s2l "ab")
    ∧ (∀ v ∈ ([(s2l "ab", s2l "xy")].map Prod.fst),
        Difflib.cutoff ≤ Difflib.ratioQ v (s2l "ab") →
        Difflib.tupLtB (Difflib.ratioQ (s2l "ab") (s2l "ab"), s2l "ab")
          (Difflib.ratioQ v (s2l "ab"), v) = false)
    ∧ ACI.check_url_support (.ok [(s2l "ab", s2l "xy")]) (s2l "ab")
        = .supported (s2l "ab") (firstNameFor [(s2l "ab", s2l "xy")] (s2l "ab")) :=
  (c1_resolver_structure [(s2l "ab", s2l "xy")] (s2l "ab")).1 (s2l "ab") (by decide)

/-- C2 (counterexample): at a resolvable query the implemented
`check_supported_url_tool` returns the action directive naming
`get_aci_data_tool`, not the downstream read result described by the
spec `resolveAndChain` (here `read` returns `"DATA"`). -/
theorem c2_chain_counterexample :
    aciChainOutcome (.ok [(s2l "ab", s2l "xy")]) (s2l "ab")
      = .actionDirective "get_aci_data_tool" (s2l "ab") (s2l "xy")
    ∧ resolveAndChainSpec (fun _ => "DATA") (.ok [(s2l "ab", s2l "xy")]) (s2l "ab")
      = .downstream "DATA"
    ∧ ¬ aciChainOutcome (.ok [(s2l "ab", s2l "xy")]) (s2l "ab")
      = resolveAndChainSpec (fun _ => "DATA") (.ok [(s2l "ab", s2l "xy")]) (s2l "ab") := by
  decide

/-- C2 (amended): on a `supported` resolution the chain tools do not call
the read tool; they return a directive naming the paired read tool
(`get_aci_data_tool` for ACI, `get_ise_data_tool` for ISE) with the
resolved identifier as input.  The separate `process_agent_response`,
applied to such a directive, is what invokes the named tool with that
input and returns its result. -/
theorem c2_supported_returns_directive
    (load : LoadResult (List (List Char × List Char))) (q u n : List Char)
    (h : ACI.check_url_support load q = .supported u n) :
    ACI.check_supported_url_tool load q = .directive "get_aci_data_tool" u n
    ∧ (∀ load2 q2 u2 n2, ISE.check_url_support load2 q2 = .supported u2 n2 →
        ISE.check_supported_url_tool load2 q2 = .directive "get_ise_data_tool" u2 n2)
    ∧ (∀ {α : Type} (invoke : String → List Char → α) (t : String) (inp nm : List Char),
        process_agent_response invoke (.directive t inp nm) = .invoked (invoke t inp)) := by
  refine ⟨?_, ?_, ?_⟩
  · simp [ACI.check_supported_url_tool, h]
  · intro load2 q2 u2 n2 h2
    simp [ISE.check_supported_url_tool, h2]
  · intro α invoke t inp nm
    rfl

/-- Witness for C2 at the catalog `[("ab", "xy")]` and query `"ab"`. -/
theorem c2_supported_returns_directive_witness :
    ACI.check_supported_url_tool (.ok [(s2l "ab", s2l "xy")]) (s2l "ab")
      = .directive "get_aci_data_tool" (s2l "ab") (s2l "xy")
    ∧ (∀ load2 q2 u2 n2, ISE.check_url_support load2 q2 = .supported u2 n2 →
        ISE.check_supported_url_tool load2 q2 = .directive "get_ise_data_tool" u2 n2)
    ∧ (∀ {α : Type} (invoke : String → List Char → α) (t : String) (inp nm : List Char),
        process_agent_response invoke (.directive t inp nm) = .invoked (invoke t inp)) :=
  c2_supported_returns_directive (.ok [(s2l "ab", s2l "xy")]) (s2l "ab")
    (s2l "ab") (s2l "xy") (by decide)

/-- C3 (counterexample): `apply_device_configuration` performs no denylist
validation — on the input `"show ip int brief | include up"` (which
contains the denylisted token `"|"`) it proceeds to connect and, in an
environment where every call succeeds, applies the configuration and
returns success. -/
theorem c3_configure_counterexample :
    IOSXE.hasSub (s2l "|") (s2l "show ip int brief | include up") = true
    ∧ IOSXE.apply_device_configuration IOSXE.allOk (s2l "show ip int brief | include up")
      = (.success, [.loadTestbed, .connect, .configureEv, .disconnect])
    ∧ IOSXE.DevEvent.connect
      ∈ (IOSXE.apply_device_configuration IOSXE.allOk
          (s2l "show ip int brief | include up")).2 := by
  decide

/-- C3 (amended): the denylist rejection is on the read path:
`run_show_command` with a command containing a denylisted token returns
the validation-error dictionary with an empty event trace — so before
any testbed load or connection attempt; `apply_device_configuration`
performs no such check (see the counterexample). -/
theorem c3_denylist_on_read_path (o : IOSXE.DevOracle) (cmd m : List Char)
    (h : IOSXE.firstDisallowed cmd = some m) :
    IOSXE.run_show_command o cmd = (.validationError cmd m, []) := by
  unfold IOSXE.run_show_command
  rw [h]

/-- Witness for C3 at the example input of the spec. -/
theorem c3_denylist_on_read_path_witness :
    IOSXE.run_show_command IOSXE.allOk (s2l "show ip int brief | include up")
      = (.validationError (s2l "show ip int brief | include up") (s2l "|"), []) :=
  c3_denylist_on_read_path IOSXE.allOk (s2l "show ip int brief | include up") (s2l "|")
    (by decide)

/-- C4 (counterexample): in an environment where `device.parse` raises
(and everything else succeeds), `run_show_command` establishes the
connection but returns the error dictionary without ever disconnecting —
the connection is left open on this failure path. -/
theorem c4_leak_counterexample :
    (IOSXE.run_show_command IOSXE.parseRaises (s2l "show version")).1
      = .errorMsg "parse failed"
    ∧ IOSXE.DevEvent.connect
      ∈ (IOSXE.run_show_command IOSXE.parseRaises (s2l "show version")).2
    ∧ ¬ IOSXE.DevEvent.disconnect
      ∈ (IOSXE.run_show_command IOSXE.parseRaises (s2l "show version")).2 := by
  decide

/-- C4 (amended): on the success path each device-automation operation
disconnects before returning; but there is no `finally`, so failure
paths after `connect` (the no-parser early return and any raised
exception) return without disconnecting — see the counterexample. -/
theorem c4_success_path_disconnect :
    (∀ (o : IOSXE.DevOracle) (c : List Char) (s : String),
      (IOSXE.run_show_command o c).1 = .parsed s →
      IOSXE.DevEvent.disconnect ∈ (IOSXE.run_show_command o c).2)
    ∧ (∀ (o : IOSXE.DevOracle) (cfg : List Char),
      (IOSXE.apply_device_configuration o cfg).1 = .success →
      IOSXE.DevEvent.disconnect ∈ (IOSXE.apply_device_configuration o cfg).2)
    ∧ (∀ (o : IOSXE.DevOracle) (s : String),
      (IOSXE.execute_show_run o).1 = .output s →
      IOSXE.DevEvent.disconnect ∈ (IOSXE.execute_show_run o).2)
    ∧ (∀ (o : IOSXE.DevOracle) (s : String),
      (IOSXE.execute_show_logging o).1 = .output s →
      IOSXE.DevEvent.disconnect ∈ (IOSXE.execute_show_logging o).2) := by
  refine ⟨?_, ?_, ?_, ?_⟩
  · intro o c s h
    unfold IOSXE.run_show_command at h ⊢
    rcases h0 : IOSXE.firstDisallowed c with _ | m
    · rcases h1 : o.loadTestbed with e | u1
      · simp [h0, h1] at h
      · rcases h2 : o.connect with e | u2
        · simp [h0, h1, h2] at h
        · rcases h3 : o.getParser c with e | b
          · simp [h0, h1, h2, h3] at h
          · cases b
            · simp [h0, h1, h2, h3] at h
            · rcases h4 : o.parse c with e | out
              · simp [h0, h1, h2, h3, h4] at h
              · rcases h5 : o.disconnect with e | u3
                · simp [h0, h1, h2, h3, h4, h5] at h
                · simp [h0, h1, h2, h3, h4, h5]
    · simp [h0] at h
  · intro o cfg h
    unfold IOSXE.apply_device_configuration at h ⊢
    rcases h1 : o.loadTestbed with e | u1
    · simp [h1] at h
    · rcases h2 : o.connect with e | u2
      · simp [h1, h2] at h
      · rcases h3 : o.configure cfg with e | u3
        · simp [h1, h2, h3] at h
        · rcases h4 : o.disconnect with e | u4
          · simp [h1, h2, h3, h4] at h
          · simp [h1, h2, h3, h4]
  · intro o s h
    unfold IOSXE.execute_show_run at h ⊢
    rcases h1 : o.loadTestbed with e | u1
    · simp [h1] at h
    · rcases h2 : o.connect with e | u2
      · simp [h1, h2] at h
      · rcases h3 : o.execute (s2l "show run brief") with e | out
        · simp [h1, h2, h3] at h
        · rcases h4 : o.disconnect with e | u4
          · simp [h1, h2, h3, h4] at h
          · simp [h1, h2, h3, h4]
  · intro o s h
    unfold IOSXE.execute_show_logging at h ⊢
    rcases h1 : o.loadTestbed with e | u1
    · simp [h1] at h
    · rcases h2 : o.connect with e | u2
      · simp [h1, h2] at h
      · rcases h3 : o.execute (s2l "show logging last 250") with e | out
        · simp [h1, h2, h3] at h
        · rcases h4 : o.disconnect with e | u4
          · simp [h1, h2, h3, h4] at h
          · simp [h1, h2, h3, h4]

/-- Witness for C4 in the all-success environment. -/
theorem c4_success_path_disconnect_witness :
    (IOSXE.run_show_command IOSXE.allOk (s2l "show version")).1 = .parsed "PARSED"
    ∧ IOSXE.DevEvent.disconnect
      ∈ (IOSXE.run_show_command IOSXE.allOk (s2l "show version")).2 :=
  ⟨by decide, c4_success_path_disconnect.1 IOSXE.allOk (s2l "show version") "PARSED" (by decide)⟩

/-- C5: whenever the catalog source is missing, unreadable or malformed,
`load_urls` returns the `{"error": ...}` dictionary (it never raises —
the model is total), and every subsequent `check_url_support` against
that load outcome passes exactly that error through — never
`supported`, never `unsupported`, never a silently empty catalog. -/
theorem c5_load_error_short_circuits (f : UrlFileOutcome)
    (hf : urlLoadFails f = true) :
    ∃ m, ACI.load_urls f = .error m ∧
      ∀ q, ACI.check_url_support (ACI.load_urls f) q = .loadError m
        ∧ (∀ u n, ¬ ACI.check_url_support (ACI.load_urls f) q = .supported u n)
        ∧ (∀ inp, ¬ ACI.check_url_support (ACI.load_urls f) q = .unsupported inp) := by
  have build : ∀ m, ACI.load_urls f = .error m →
      ∃ m2, ACI.load_urls f = .error m2 ∧
        ∀ q, ACI.check_url_support (ACI.load_urls f) q = .loadError m2
          ∧ (∀ u n, ¬ ACI.check_url_support (ACI.load_urls f) q = .supported u n)
          ∧ (∀ inp, ¬ ACI.check_url_support (ACI.load_urls f) q = .unsupported inp) := by
    intro m hm
    refine ⟨m, hm, fun q => ?_⟩
    rw [hm]
    exact ⟨rfl, fun u n hc => UrlSupportResult.noConfusion hc,
      fun inp hc => UrlSupportResult.noConfusion hc⟩
  cases f with
  | missing => exact build _ rfl
  | unreadableOrMalformed m0 => exact build _ rfl
  | content es =>
    have hnone : extractUrlEntries es = none := by
      unfold urlLoadFails at hf
      exact Option.isNone_iff_eq_none.mp hf
    exact build "Error loading URLs: KeyError URL" (by simp [ACI.load_urls, hnone])

/-- Witness for C5 with a missing catalog file. -/
theorem c5_load_error_short_circuits_witness :
    ∃ m, ACI.load_urls .missing = .error m ∧
      ∀ q, ACI.check_url_support (ACI.load_urls .missing) q = .loadError m
        ∧ (∀ u n, ¬ ACI.check_url_support (ACI.load_urls .missing) q = .supported u n)
        ∧ (∀ inp, ¬ ACI.check_url_support (ACI.load_urls .missing) q = .unsupported inp) :=
  c5_load_error_short_circuits .missing (by decide)

/-- C6: whenever the parsed create input is a JSON object whose
`payload` field is absent or not a mapping, `create_aci_data_tool`
returns the error dictionary and attempts no network I/O (no
authentication, no POST). -/
theorem c6_invalid_payload_no_io (d : List (List Char × PyVal)) (net : ACI.NetOracle)
    (h : payloadAbsentOrNotDict d = true) :
    ACI.isErrorRes (ACI.create_aci_data_tool (.ok (.dict d)) net).1 = true
    ∧ (ACI.create_aci_data_tool (.ok (.dict d)) net).2 = false := by
  unfold payloadAbsentOrNotDict at h
  simp only [ACI.create_aci_data_tool]
  rcases hp : pyGet d (s2l "payload") with _ | v
  · simp [falsyOpt, ACI.isErrorRes]
  · cases hcond : (falsyOpt (pyGet d (s2l "api_url")) || falsyOpt (some v)) with
    | true => exact ⟨rfl, rfl⟩
    | false =>
      cases v with
      | dict pd =>
        rw [hp] at h
        simp [isDictB] at h
      | str sv => exact ⟨rfl, rfl⟩
      | int n => exact ⟨rfl, rfl⟩
      | bool b => exact ⟨rfl, rfl⟩
      | list len => exact ⟨rfl, rfl⟩
      | nullV => exact ⟨rfl, rfl⟩

/-- Witness for C6 with a bare-string payload. -/
theorem c6_invalid_payload_no_io_witness :
    ACI.isErrorRes (ACI.create_aci_data_tool
      (.ok (.dict [(s2l "api_url", PyVal.str (s2l "/x")),
                   (s2l "payload", PyVal.str (s2l "oops"))])) ACI.netOk).1 = true
    ∧ (ACI.create_aci_data_tool
      (.ok (.dict [(s2l "api_url", PyVal.str (s2l "/x")),
                   (s2l "payload", PyVal.str (s2l "oops"))])) ACI.netOk).2 = false :=
  c6_invalid_payload_no_io _ ACI.netOk (by rfl)

/-- C7: on a query the resolver cannot resolve (`unsupported` or a
passed-through load error), the chain tools return exactly the
resolver result — no directive is produced (no chaining, and hence at
most one hop ever) — and, the functions being pure, a repeated call
returns the same outcome. -/
theorem c7_unresolved_passthrough :
    (∀ load q, isUnresolvedUrl (ACI.check_url_support load q) = true →
      ACI.check_supported_url_tool load q = .res (ACI.check_url_support load q)
      ∧ ACI.check_supported_url_tool load q = ACI.check_supported_url_tool load q
      ∧ ∀ t inp nm, ¬ ACI.check_supported_url_tool load q = .directive t inp nm)
    ∧ (∀ load c, IOSXE.isUnresolvedCmd (IOSXE.check_command_support load c) = true →
      IOSXE.check_supported_command_tool load c = .res (IOSXE.check_command_support load c)
      ∧ IOSXE.check_supported_command_tool load c = IOSXE.check_supported_command_tool load c
      ∧ ∀ t inp, ¬ IOSXE.check_supported_command_tool load c = .directive t inp) := by
  constructor
  · intro load q h
    unfold ACI.check_supported_url_tool
    rcases hc : ACI.check_url_support load q with m | ⟨u, n⟩ | inp
    · exact ⟨rfl, rfl, fun t inp nm hd => UrlToolResult.noConfusion hd⟩
    · rw [hc] at h
      simp [isUnresolvedUrl] at h
    · exact ⟨rfl, rfl, fun t inp2 nm hd => UrlToolResult.noConfusion hd⟩
  · intro load c h
    unfold IOSXE.check_supported_command_tool
    rcases hc : IOSXE.check_command_support load c with m | cmds | cc | cmd
    · exact ⟨rfl, rfl, fun t inp hd => IOSXE.CmdToolResult.noConfusion hd⟩
    · rw [hc] at h
      simp [IOSXE.isUnresolvedCmd] at h
    · rw [hc] at h
      simp [IOSXE.isUnresolvedCmd] at h
    · exact ⟨rfl, rfl, fun t inp hd => IOSXE.CmdToolResult.noConfusion hd⟩

/-- Witness for C7 with a failed load (ACI) and an unsupported command
(IOS XE, empty catalog). -/
theorem c7_unresolved_passthrough_witness :
    (ACI.check_supported_url_tool (.error "boom") (s2l "x")
      = .res (ACI.check_url_support (.error "boom") (s2l "x"))
      ∧ ACI.check_supported_url_tool (.error "boom") (s2l "x")
        = ACI.check_supported_url_tool (.error "boom") (s2l "x")
      ∧ ∀ t inp nm, ¬ ACI.check_supported_url_tool (.error "boom") (s2l "x")
        = .directive t inp nm)
    ∧ (IOSXE.check_supported_command_tool (.ok []) (s2l "show version")
      = .res (IOSXE.check_command_support (.ok []) (s2l "show version"))
      ∧ IOSXE.check_supported_command_tool (.ok []) (s2l "show version")
        = IOSXE.check_supported_command_tool (.ok []) (s2l "show version")
      ∧ ∀ t inp, ¬ IOSXE.check_supported_command_tool (.ok []) (s2l "show version")
        = .directive t inp) :=
  ⟨c7_unresolved_passthrough.1 (.error "boom") (s2l "x") (by decide),
   c7_unresolved_passthrough.2 (.ok []) (s2l "show version") (by decide)⟩

/-- C9: a well-formed but empty mapping `{}` as the `payload` is falsy in
Python, so the presence check `if not api_url or not payload` treats it
as missing: `create_aci_data_tool` returns the both-must-be-provided
error without attempting any network I/O, whatever the rest of the
input. -/
theorem c9_empty_mapping_rejected (d : List (List Char × PyVal)) (net : ACI.NetOracle)
    (h : pyGet d (s2l "payload") = some (.dict [])) :
    ACI.create_aci_data_tool (.ok (.dict d)) net
      = (.errorRes "An unexpected error occurred: Both api_url and payload must be provided.",
         false) := by
  simp only [ACI.create_aci_data_tool]
  rw [h]
  simp [falsyOpt, pyFalsy]

/-- Witness for C9: a valid `api_url` with the empty-mapping payload. -/
theorem c9_empty_mapping_rejected_witness :
    ACI.create_aci_data_tool
      (.ok (.dict [(s2l "api_url", PyVal.str (s2l "/x")), (s2l "payload", PyVal.dict [])]))
      ACI.netOk
      = (.errorRes "An unexpected error occurred: Both api_url and payload must be provided.",
         false) :=
  c9_empty_mapping_rejected _ ACI.netOk (by rfl)

/-- C10: on a successfully loaded command catalog containing an entry
whose command string is exactly `"error"`, the membership test
`"error" in command_list` is true, so `check_command_support` takes the
load-failure branch and returns the raw command list itself — no fuzzy
matching, no tagged result. -/
theorem c10_error_entry_returns_raw_list (cmds : List (List Char)) (command : List Char)
    (h : s2l "error" ∈ cmds) :
    IOSXE.check_command_support (.ok cmds) command = .rawList cmds
    ∧ (∀ c, ¬ IOSXE.check_command_support (.ok cmds) command = .supported c)
    ∧ (∀ c, ¬ IOSXE.check_command_support (.ok cmds) command = .unsupported c) := by
  have hco : cmds.contains (s2l "error") = true := List.elem_eq_true_of_mem h
  have hmain : IOSXE.check_command_support (.ok cmds) command = .rawList cmds := by
    simp only [IOSXE.check_command_support]
    rw [if_pos hco]
  refine ⟨hmain, ?_, ?_⟩
  · intro c hc
    rw [hmain] at hc
    exact IOSXE.CommandSupportResult.noConfusion hc
  · intro c hc
    rw [hmain] at hc
    exact IOSXE.CommandSupportResult.noConfusion hc

/-- Witness for C10 with the catalog `["error", "show version"]`. -/
theorem c10_error_entry_returns_raw_list_witness :
    IOSXE.check_command_support (.ok [s2l "error", s2l "show version"]) (s2l "show ver")
      = .rawList [s2l "error", s2l "show version"]
    ∧ (∀ c, ¬ IOSXE.check_command_support (.ok [s2l "error", s2l "show version"])
        (s2l "show ver") = .supported c)
    ∧ (∀ c, ¬ IOSXE.check_command_support (.ok [s2l "error", s2l "show version"])
        (s2l "show ver") = .unsupported c) :=
  c10_error_entry_returns_raw_list [s2l "error", s2l "show version"] (s2l "show ver")
    (by decide)
